import Mathlib

/-!
Verification of the `go-doh-client` DNS message codec.

The development shallowly embeds the Go source of the codec:

* `encodeQuery` (query.go): serializes a single-question DNS query.
* `parseResponse` (response.go): validates the 12-byte header, maps the
  RCODE error table, skips the question section and walks the answer
  section.
* `parser.parse` and the per-record-type parsers together with
  `parser.parseName` (parser.go): RDATA parsing and RFC 1035 §4.1.4
  compressed-name decoding.

Modelling conventions:

* Go byte slices are `List Nat` (each element a byte value).
* A Go slice expression `b[i:j]` panics when `j > len(b)`; every such
  implicit bound is made explicit, and a failed bound yields the result
  `crash` (a Go runtime panic, distinct from a returned `error`).
* `parseName` recurses into itself for every compression pointer with no
  bound in the source; the embedding threads a `fuel` counter that is
  spent once per loop iteration, and returns `diverge` when it runs out.
  A run of the Go code terminates on an input exactly when some fuel
  value makes the embedding return a non-`diverge` result, and loops
  forever exactly when every fuel value returns `diverge`.
* Bit operations on bytes are written arithmetically: for a byte `b`,
  `b >> 7 = b / 128`, `b >> 3 & 15 = b / 8 % 16`, `b >> 1 & 1 = b / 2 % 2`,
  `b & 15 = b % 16`, and for any natural `x`, `x & 16383 = x % 16384`.
-/

namespace Doh

/-- DNS type code `A` (types.go). -/
def A : Nat := 1

/-- DNS type code `NS` (types.go). -/
def NS : Nat := 2

/-- DNS type code `CNAME` (types.go). -/
def CNAME : Nat := 5

/-- DNS type code `SOA` (types.go). -/
def SOA : Nat := 6

/-- DNS type code `PTR` (types.go). -/
def PTR : Nat := 12

/-- DNS type code `MX` (types.go). -/
def MX : Nat := 15

/-- DNS type code `TXT` (types.go). -/
def TXT : Nat := 16

/-- DNS type code `AAAA` (types.go). -/
def AAAA : Nat := 28

/-- DNS type code `SRV` (types.go). -/
def SRV : Nat := 33

/-- DNS class code `IN` (types.go). -/
def IN : Nat := 1

/-- DNS class code `ANYCLASS` (types.go). -/
def ANYCLASS : Nat := 255

/-- Length of a DNS message header in bytes. -/
def DNSMsgHeaderLen : Nat := 12

/-- The named `error` values of errors.go that the codec can return. -/
inductive DNSErr
  | formatError
  | serverFailure
  | nameError
  | notImplemented
  | refused
  | notAResponse
  | notIN
  | notStandardQuery
  | truncated
  | corrupted
deriving DecidableEq

/-- The `dnsErrors` table of errors.go: a six-entry slice indexed by
RCODE, whose entry 0 is Go's `nil` error. -/
def dnsErrors : List (Option DNSErr) :=
  [none, some .formatError, some .serverFailure, some .nameError,
   some .notImplemented, some .refused]

/-- Outcome of running a piece of Go code that produces an `α`:
`ok` is a normal return, `crash` a runtime panic (out-of-range index or
slice), `diverge` the fuel bound's marker for a non-terminating run. -/
inductive GoRes (α : Type)
  | ok (a : α)
  | crash
  | diverge
deriving DecidableEq

/-- Sequencing of embedded Go computations: panics and divergence
propagate. -/
def GoRes.bind {α β : Type} : GoRes α → (α → GoRes β) → GoRes β
  | .ok a, f => f a
  | .crash, _ => .crash
  | .diverge, _ => .diverge

/-- The parsed payload of one answer: one variant per record type of
types.go (`ARecord`, `AAAARecord`, ...). Strings are byte lists. -/
inductive Payload
  | a (ip4 : List Nat)
  | aaaa (ip6 : List Nat)
  | cname (target : List Nat)
  | ns (host : List Nat)
  | ptr (target : List Nat)
  | mx (pref : Nat) (host : List Nat)
  | srv (priority weight port : Nat) (target : List Nat)
  | txt (text : List Nat)
  | soa (primaryNS respMailbox : List Nat) (serial : Nat)
      (refresh retry expire : Int) (minimum : Nat)
deriving DecidableEq

/-- The `answer` struct of response.go. The Go field `class` is a Lean
keyword and is embedded as `cls`; `parsed` is the dynamically typed
payload, `none` standing for Go's `nil`. -/
structure Answer where
  name : List Nat
  t : Nat
  cls : Nat
  ttl : Nat
  parsed : Option Payload
deriving DecidableEq

/-- Result of `parseResponse`: `ret answers err` is a Go
`return answers, err` (with `none` for a `nil` slice / `nil` error);
`crash` and `diverge` as in `GoRes`. -/
inductive PRes
  | ret (answers : Option (List Answer)) (err : Option DNSErr)
  | crash
  | diverge
deriving DecidableEq

/-- Result of one of `parseResponse`'s two section-walking loops:
`ok` carries the loop's state after the final iteration, `earlyRet` a
`return answers, err` executed inside the loop body. -/
inductive LoopRes (α : Type)
  | ok (a : α)
  | earlyRet (answers : Option (List Answer)) (err : Option DNSErr)
  | crash
  | diverge
deriving DecidableEq

/-- The Go slice `l[i:j]` (as a copy), assuming its bounds were already
checked. -/
def slice (l : List Nat) (i j : Nat) : List Nat :=
  (l.drop i).take (j - i)

/-- Embeds `binary.BigEndian.Uint16(l[i:i+2])`; `none` when the slice bound
`i+2 ≤ len(l)` fails (in Go: a panic at the slice expression). -/
def readU16 (l : List Nat) (i : Nat) : Option Nat :=
  match l.drop i with
  | b0 :: b1 :: _ => some (b0 * 256 + b1)
  | _ => none

/-- Embeds `binary.BigEndian.Uint32(l[i:i+4])`; `none` when the slice bound
fails. -/
def readU32 (l : List Nat) (i : Nat) : Option Nat :=
  match l.drop i with
  | b0 :: b1 :: b2 :: b3 :: _ =>
      some (((b0 * 256 + b1) * 256 + b2) * 256 + b3)
  | _ => none

/-- Embeds `strings.Join(parts, sep)` on byte-list parts, for a one-byte
separator. -/
def joinWith (sep : Nat) : List (List Nat) → List Nat
  | [] => []
  | [l] => l
  | l :: ls => l ++ sep :: joinWith sep ls

/-- Embeds `strings.Join(labels, ".")` (46 = '.'). -/
def dotJoin (labels : List (List Nat)) : List Nat :=
  joinWith 46 labels

/-- Embeds `strconv.Itoa` of a byte value, as ASCII bytes. -/
def itoa (n : Nat) : List Nat :=
  (Nat.toDigits 10 n).map Char.toNat

/-- Embeds `fmt.Sprintf("%x", n)` of a 16-bit group, as ASCII bytes. -/
def hexStr (n : Nat) : List Nat :=
  (Nat.toDigits 16 n).map Char.toNat

/-- Go's `int32(x)` reinterpretation of a 32-bit unsigned value. -/
def toInt32 (x : Nat) : Int :=
  if x < 2 ^ 31 then (x : Int) else (x : Int) - 2 ^ 32

/-- Embeds `parser.parseName` of parser.go. `res` is the whole-message
field `p.res`, `b` the buffer argument, `offset` and `labels` the loop
state. Each loop iteration consumes one unit of fuel; the source bounds
neither the loop nor the pointer recursion. The label-loop reads
`b[offset]`, a pointer reads `b[offset:offset+2]` and recurses on
`p.res[ptr:]`, a plain label copies `b[offset+1:offset+length+1]`; every
one of those Go expressions panics (`crash`) when its index or bound
exceeds the buffer. -/
def parseNameGo (res : List Nat) : Nat → List Nat → Nat → List (List Nat) → GoRes (List Nat × Nat)
  | 0, _, _, _ => .diverge
  | fuel + 1, b, offset, labels =>
    if offset < b.length then
      let len0 := b.getD offset 0
      if len0 = 0 then
        .ok (dotJoin labels, offset + 1)
      else if len0 / 64 = 3 then
        if offset + 2 ≤ b.length then
          let ptr := (len0 * 256 + b.getD (offset + 1) 0) % 16384
          if ptr ≤ res.length then
            match parseNameGo res fuel (res.drop ptr) 0 [] with
            | .ok (label, _) => .ok (dotJoin (labels ++ [label]), offset + 2)
            | .crash => .crash
            | .diverge => .diverge
          else .crash
        else .crash
      else
        if offset + len0 + 1 ≤ b.length then
          parseNameGo res fuel b (offset + len0 + 1)
            (labels ++ [slice b (offset + 1) (offset + len0 + 1)])
        else .crash
    else .crash

/-- Embeds `p.parseName(b)` with explicit fuel. -/
def parseName (res : List Nat) (fuel : Nat) (b : List Nat) : GoRes (List Nat × Nat) :=
  parseNameGo res fuel b 0 []

/-- Embeds `parser.parseA`: one decimal group per RDATA byte, joined with dots.
It indexes only `rdata[i]` for `i < len(rdata)` and never panics. -/
def parseA (rdata : List Nat) : GoRes Payload :=
  .ok (.a (dotJoin (rdata.map itoa)))

/-- The loop of `parser.parseAAAA`: `binary.BigEndian.Uint16(rdata[i:i+2])`
for `i = 0, 2, 4, ...`; on an odd-length buffer the final slice panics. -/
def aaaaGroups : List Nat → GoRes (List (List Nat))
  | [] => .ok []
  | [_] => .crash
  | b0 :: b1 :: rest => (aaaaGroups rest).bind fun gs => .ok (hexStr (b0 * 256 + b1) :: gs)

/-- Embeds `parser.parseAAAA`: hex groups joined with colons (58 = ':'). -/
def parseAAAA (rdata : List Nat) : GoRes Payload :=
  (aaaaGroups rdata).bind fun gs => .ok (.aaaa (joinWith 58 gs))

/-- Embeds `parser.parseCNAME`: one name over the whole RDATA. -/
def parseCNAME (res : List Nat) (fuel : Nat) (rdata : List Nat) : GoRes Payload :=
  (parseName res fuel rdata).bind fun nm => .ok (.cname nm.1)

/-- Embeds `parser.parseMX`: `Uint16(rdata[0:2])` (panic when `len(rdata) < 2`)
then one name from `rdata[2:]`. -/
def parseMX (res : List Nat) (fuel : Nat) (rdata : List Nat) : GoRes Payload :=
  match rdata with
  | p0 :: p1 :: rest =>
      (parseName res fuel rest).bind fun nm => .ok (.mx (p0 * 256 + p1) nm.1)
  | _ => .crash

/-- Embeds `parser.parseSRV`: three `Uint16` reads over `rdata[0:6]` (panic when
`len(rdata) < 6`) then one name from `rdata[6:]`. -/
def parseSRV (res : List Nat) (fuel : Nat) (rdata : List Nat) : GoRes Payload :=
  match rdata with
  | a0 :: a1 :: b0 :: b1 :: c0 :: c1 :: rest =>
      (parseName res fuel rest).bind fun nm =>
        .ok (.srv (a0 * 256 + a1) (b0 * 256 + b1) (c0 * 256 + c1) nm.1)
  | _ => .crash

/-- Embeds `parser.parseNS`: one name over the whole RDATA. -/
def parseNS (res : List Nat) (fuel : Nat) (rdata : List Nat) : GoRes Payload :=
  (parseName res fuel rdata).bind fun nm => .ok (.ns nm.1)

/-- Embeds `parser.parseTXT`: `length := rdata[0]` (panic on an empty buffer)
then `rdata[1:length+1]` (panic when `length+1 > len(rdata)`). -/
def parseTXT (rdata : List Nat) : GoRes Payload :=
  match rdata with
  | [] => .crash
  | len0 :: rest =>
      if len0 ≤ rest.length then .ok (.txt (rest.take len0)) else .crash

/-- Embeds `parser.parseSOA`: two consecutive names, then five 32-bit reads over
the remaining 20 bytes (each read panics when the buffer is shorter). -/
def parseSOA (res : List Nat) (fuel : Nat) (rdata : List Nat) : GoRes Payload :=
  (parseName res fuel rdata).bind fun nm1 =>
    if nm1.2 ≤ rdata.length then
      let r1 := rdata.drop nm1.2
      (parseName res fuel r1).bind fun nm2 =>
        if nm2.2 ≤ r1.length then
          match r1.drop nm2.2 with
          | a0 :: a1 :: a2 :: a3 :: b0 :: b1 :: b2 :: b3 ::
            c0 :: c1 :: c2 :: c3 :: d0 :: d1 :: d2 :: d3 ::
            e0 :: e1 :: e2 :: e3 :: _ =>
              .ok (.soa nm1.1 nm2.1
                (((a0 * 256 + a1) * 256 + a2) * 256 + a3)
                (toInt32 (((b0 * 256 + b1) * 256 + b2) * 256 + b3))
                (toInt32 (((c0 * 256 + c1) * 256 + c2) * 256 + c3))
                (toInt32 (((d0 * 256 + d1) * 256 + d2) * 256 + d3))
                (((e0 * 256 + e1) * 256 + e2) * 256 + e3))
          | _ => .crash
        else .crash
    else .crash

/-- Embeds `parser.parsePTR`: one name over the whole RDATA. -/
def parsePTR (res : List Nat) (fuel : Nat) (rdata : List Nat) : GoRes Payload :=
  (parseName res fuel rdata).bind fun nm => .ok (.ptr nm.1)

/-- Embeds `parser.parse`: the dispatch switch of parser.go. The first switch
handles the class-agnostic types; A and AAAA are tried only for class
`IN` or `ANYCLASS`; everything else returns Go's `nil` payload. -/
def parse (res : List Nat) (fuel : Nat) (t c : Nat) (rdata : List Nat) : GoRes (Option Payload) :=
  if t = CNAME then (parseCNAME res fuel rdata).bind fun p => .ok (some p)
  else if t = MX then (parseMX res fuel rdata).bind fun p => .ok (some p)
  else if t = SRV then (parseSRV res fuel rdata).bind fun p => .ok (some p)
  else if t = NS then (parseNS res fuel rdata).bind fun p => .ok (some p)
  else if t = TXT then (parseTXT rdata).bind fun p => .ok (some p)
  else if t = SOA then (parseSOA res fuel rdata).bind fun p => .ok (some p)
  else if t = PTR then (parsePTR res fuel rdata).bind fun p => .ok (some p)
  else if c = IN ∨ c = ANYCLASS then
    if t = A then (parseA rdata).bind fun p => .ok (some p)
    else if t = AAAA then (parseAAAA rdata).bind fun p => .ok (some p)
    else .ok none
  else .ok none

/-- The question-skipping loop of `parseResponse`: for each of the
`qdcount` entries, return `nil, ErrCorrupted` on an empty buffer, decode
a name, then reslice `buf = buf[offset+4:]` (panic when past the end). -/
def skipQuestions (res : List Nat) (fuel : Nat) : Nat → List Nat → LoopRes (List Nat)
  | 0, buf => .ok buf
  | i + 1, buf =>
    if buf.length = 0 then .earlyRet none (some .corrupted)
    else
      match parseName res fuel buf with
      | .crash => .crash
      | .diverge => .diverge
      | .ok (_, offset) =>
          if offset + 4 ≤ buf.length then
            skipQuestions res fuel i (buf.drop (offset + 4))
          else .crash

/-- The answer-walking loop of `parseResponse`: for each of the `ancount`
records, return `nil, ErrCorrupted` on an empty buffer, decode the name,
read type/class/TTL/RDLENGTH, slice the RDATA (each read panics when it
runs past the buffer), dispatch to `parse`, and append the answer. -/
def parseAnswers (res : List Nat) (fuel : Nat) : Nat → List Nat → List Answer → LoopRes (List Answer)
  | 0, _, answers => .ok answers
  | i + 1, buf, answers =>
    if buf.length = 0 then .earlyRet none (some .corrupted)
    else
      match parseName res fuel buf with
      | .crash => .crash
      | .diverge => .diverge
      | .ok (name, offset) =>
          match readU16 buf offset, readU16 buf (offset + 2),
                readU32 buf (offset + 4), readU16 buf (offset + 8) with
          | some t, some cls, some ttl, some rdlength =>
              if offset + 10 + rdlength ≤ buf.length then
                let rdata := slice buf (offset + 10) (offset + 10 + rdlength)
                match parse res fuel t cls rdata with
                | .crash => .crash
                | .diverge => .diverge
                | .ok parsed =>
                    parseAnswers res fuel i (buf.drop (offset + 10 + rdlength))
                      (answers ++ [⟨name, t, cls, ttl, parsed⟩])
              else .crash
          | _, _, _, _ => .crash

/-- Embeds `parseResponse` of response.go: length floor, the four header gates
(QR, OPCODE, TC, RCODE — the RCODE error indexes the six-entry
`dnsErrors` table, so an RCODE of 6–15 panics), then the two section
loops. Every error return in the source returns a `nil` answer slice. -/
def parseResponse (fuel : Nat) (res : List Nat) : PRes :=
  if res.length < DNSMsgHeaderLen then .ret none (some .corrupted)
  else
    let qr := res.getD 2 0 / 128
    if qr ≠ 1 then .ret none (some .notAResponse)
    else
      let opcode := res.getD 2 0 / 8 % 16
      if opcode ≠ 0 then .ret none (some .notStandardQuery)
      else
        let tc := res.getD 2 0 / 2 % 2
        if tc ≠ 0 then .ret none (some .truncated)
        else
          let rcode := res.getD 3 0 % 16
          if rcode ≠ 0 then
            match dnsErrors.get? rcode with
            | none => .crash
            | some e => .ret none e
          else
            let qdcount := res.getD 4 0 * 256 + res.getD 5 0
            let ancount := res.getD 6 0 * 256 + res.getD 7 0
            let buf := res.drop DNSMsgHeaderLen
            match skipQuestions res fuel qdcount buf with
            | .crash => .crash
            | .diverge => .diverge
            | .earlyRet a e => .ret a e
            | .ok buf2 =>
                match parseAnswers res fuel ancount buf2 [] with
                | .crash => .crash
                | .diverge => .diverge
                | .earlyRet a e => .ret a e
                | .ok answers => .ret (some answers) none

/-- Embeds `strings.Split(fqdn, ".")` on byte lists (46 = '.'). -/
def splitDot : List Nat → List (List Nat)
  | [] => [[]]
  | x :: rest =>
    if x = 46 then [] :: splitDot rest
    else
      match splitDot rest with
      | l :: ls => (x :: l) :: ls
      | [] => [[x]]

/-- The label loop of `encodeQuery`: for each label, one length byte
`byte(len(l))` (truncated modulo 256 by the `byte` conversion) followed
by the label's bytes. -/
def wireLabels : List (List Nat) → List Nat
  | [] => []
  | l :: ls => (l.length % 256) :: l ++ wireLabels ls

/-- Embeds `encodeQuery` of query.go. The process-local random transaction ID is
taken as the parameter `id` (its two big-endian bytes lead the message).
Flag bytes: `(0<<7)|(0<<3)|(0<<1)|1 = 1` (RD set) and `(1<<4) = 16`
(CD set); QDCOUNT = 1, AN/NS/AR counts 0; then the length-prefixed
labels, a zero terminator, and the big-endian 16-bit type and class. -/
def encodeQuery (id : Nat) (fqdn : List Nat) (t c : Nat) : List Nat :=
  [id / 256 % 256, id % 256,
   1, 16,
   0, 1,
   0, 0,
   0, 0,
   0, 0]
  ++ wireLabels (splitDot fqdn)
  ++ [0]
  ++ [t % 65536 / 256, t % 256]
  ++ [c % 65536 / 256, c % 256]

/-- ASCII bytes of a string literal. -/
def strBytes (s : String) : List Nat :=
  s.data.map Char.toNat

/-- A response whose header is well formed (QR = 1, OPCODE = 0, TC = 0,
RCODE = 0, QDCOUNT = 0, ANCOUNT = 1) but whose single answer record is
the truncated buffer `[5]`: a label length of 5 with no label bytes
behind it. -/
def truncatedAnswerMsg : List Nat :=
  [0, 0, 128, 0, 0, 0, 0, 1, 0, 0, 0, 0, 5]

/-- A response whose header is well formed (QDCOUNT = 0, ANCOUNT = 1) and
whose single answer's name is the compression pointer `0xC0 0x0C`,
pointing at absolute offset 12 — the pointer itself. -/
def selfPointerMsg : List Nat :=
  [0, 0, 128, 0, 0, 0, 0, 1, 0, 0, 0, 0, 192, 12]

/-- A 12-byte response whose header carries RCODE = 6 (QR = 1, OPCODE =
0, TC = 0, all counts 0). -/
def rcodeSixMsg : List Nat :=
  [0, 0, 128, 6, 0, 0, 0, 0, 0, 0, 0, 0]

/-- A domain name consisting of one 300-byte label. -/
def label300 : List Nat :=
  List.replicate 300 97

/-- The FQDN of the repository's encoding test. -/
def brendanFqdn : List Nat :=
  strBytes "brendan.abolivier.bzh"

/-- C1. The claim says no input can make `parseResponse` read out of
bounds: a read past the buffer must surface as `ErrCorrupted`. The code
violates this: on `truncatedAnswerMsg` — headers valid, one answer whose
buffer is the single byte `[5]` — `parseName` evaluates the Go slice
`b[1:6]` on a one-byte buffer and panics, for every pointer-fuel budget,
instead of returning `ErrCorrupted`. -/
theorem c1_truncated_record_panics :
    ∀ fuel : Nat, parseResponse (fuel + 1) truncatedAnswerMsg = .crash := by
  intro fuel
  rfl

/-- The self-pointing compression pointer makes `parseName` recurse into
itself at the same absolute offset, so every fuel budget is exhausted. -/
theorem parseNameGo_selfPointer (fuel : Nat) :
    parseNameGo selfPointerMsg fuel [192, 12] 0 [] = .diverge := by
  induction fuel with
  | zero => rfl
  | succ n ih =>
      have step : parseNameGo selfPointerMsg (n + 1) [192, 12] 0 [] =
          (match parseNameGo selfPointerMsg n [192, 12] 0 [] with
           | .ok (label, _) => .ok (dotJoin ([] ++ [label]), 0 + 2)
           | .crash => .crash
           | .diverge => .diverge) := rfl
      rw [step, ih]

/-- C2. The claim says pointer-following is bounded and the bound's
violation yields `ErrCorrupted`. The code has no bound: on
`selfPointerMsg`, whose answer name is a pointer to itself,
`parseResponse` diverges for every fuel budget — the Go original
recurses without bound until the stack is exhausted. -/
theorem c2_self_pointer_diverges :
    ∀ fuel : Nat, parseResponse fuel selfPointerMsg = .diverge := by
  intro fuel
  have h : parseName [0, 0, 128, 0, 0, 0, 0, 1, 0, 0, 0, 0, 192, 12] fuel [192, 12]
      = GoRes.diverge := parseNameGo_selfPointer fuel
  show parseResponse fuel selfPointerMsg = .diverge
  simp only [parseResponse]
  norm_num [DNSMsgHeaderLen, selfPointerMsg, skipQuestions, parseAnswers, h]

/-- C3. The claim says an RCODE of 6 or more yields `ErrCorrupted`. The
code instead evaluates `dnsErrors[rcode]` on the six-entry table and
panics with an index-out-of-range runtime error, for every fuel
budget. -/
theorem c3_rcode_six_panics :
    ∀ fuel : Nat, parseResponse fuel rcodeSixMsg = .crash := by
  intro fuel
  rfl

/-- C4. The claim says a label longer than 63 bytes fails with an
`EncodingError` and is never silently truncated to a wrong one-byte
length prefix. The code has no failure path at all: encoding a single
300-byte label emits the length prefix `byte(300) = 44` followed by the
intact 300 label bytes — a silently corrupted length prefix. -/
theorem c4_long_label_wrong_length_byte :
    encodeQuery 0 label300 1 1 =
      [0, 0, 1, 16, 0, 1, 0, 0, 0, 0, 0, 0]
        ++ (44 :: label300) ++ [0, 0, 1, 0, 1] := by
  set_option maxRecDepth 4000 in rfl

/-- C6. Encoding `"brendan.abolivier.bzh"` with type A and class IN:
after the two transaction-ID bytes, the output is exactly the fixed
sequence of the repository's test vector — flags `0x01 0x10`, QDCOUNT 1,
zero AN/NS/AR counts, the length-prefixed labels, the zero terminator
and the big-endian type and class. -/
theorem c6_exact_bytes :
    ∀ id : Nat, (encodeQuery id brendanFqdn A IN).drop 2 =
      [1, 16, 0, 1, 0, 0, 0, 0, 0, 0,
       7, 98, 114, 101, 110, 100, 97, 110,
       9, 97, 98, 111, 108, 105, 118, 105, 101, 114,
       3, 98, 122, 104, 0, 0, 1, 0, 1] := by
  intro id
  rfl

/-- The embedded `strings.Split` never returns an empty list of labels. -/
theorem splitDot_ne_nil (s : List Nat) : splitDot s ≠ [] := by
  cases s with
  | nil => simp [splitDot]
  | cons x rest =>
      by_cases hx : x = 46
      · simp [splitDot, hx]
      · simp only [splitDot, if_neg hx]
        cases splitDot rest with
        | nil => simp
        | cons l ls => simp

/-- The label loop writes one length byte per label plus the label
bytes, which comes to the FQDN's length plus one (one length byte per
label, one separating dot fewer). -/
theorem wireLabels_splitDot_length (s : List Nat) :
    (wireLabels (splitDot s)).length = s.length + 1 := by
  induction s with
  | nil => rfl
  | cons x rest ih =>
      by_cases hx : x = 46
      · simp only [splitDot, if_pos hx, wireLabels, List.length_cons, List.length_append,
          List.length_nil] at ih ⊢
        omega
      · rcases h : splitDot rest with _ | ⟨l, ls⟩
        · exact absurd h (splitDot_ne_nil rest)
        · rw [h] at ih
          simp only [splitDot, if_neg hx, h, wireLabels, List.length_cons, List.length_append]
            at ih ⊢
          omega

/-- C10. For every transaction id, FQDN, type and class, the encoded
query is exactly 18 bytes longer than the FQDN: a 12-byte header, the
FQDN's bytes plus one length byte per label (the dots being replaced by
the following label's length byte), the zero terminator, and the 2-byte
type and class. The length depends on neither the id nor the type or
class. -/
theorem c10_encoded_length (id : Nat) (fqdn : List Nat) (t c : Nat) :
    (encodeQuery id fqdn t c).length = fqdn.length + 18 := by
  simp only [encodeQuery, List.length_append, List.length_cons, List.length_nil,
    wireLabels_splitDot_length]
  omega

/-- C5. The header gates are applied in order on every 12-byte-or-longer
byte buffer: a clear QR top bit fails with `ErrNotAResponse`; with QR
set, a nonzero OPCODE nibble fails with `ErrNotStandardQuery`; then a
set TC bit fails with `ErrTruncated`; and with all three gates passed an
RCODE of 1–5 fails with the matching `dnsErrors` entry. In every one of
these failure cases the returned answer slice is `nil`. -/
theorem c5_header_gates (fuel : Nat) (res : List Nat)
    (hlen : 12 ≤ res.length) (hbytes : ∀ x ∈ res, x < 256) :
    (res.getD 2 0 < 128 →
        parseResponse fuel res = .ret none (some .notAResponse)) ∧
    (128 ≤ res.getD 2 0 → res.getD 2 0 / 8 % 16 ≠ 0 →
        parseResponse fuel res = .ret none (some .notStandardQuery)) ∧
    (128 ≤ res.getD 2 0 → res.getD 2 0 / 8 % 16 = 0 → res.getD 2 0 / 2 % 2 = 1 →
        parseResponse fuel res = .ret none (some .truncated)) ∧
    (∀ n : Nat, 128 ≤ res.getD 2 0 → res.getD 2 0 / 8 % 16 = 0 →
        res.getD 2 0 / 2 % 2 = 0 → res.getD 3 0 % 16 = n → 1 ≤ n → n ≤ 5 →
        parseResponse fuel res = .ret none (dnsErrors.getD n none)) := by
  have hb2 : res.getD 2 0 < 256 := by
    have h2 : 2 < res.length := by omega
    rw [List.getD_eq_getElem res 0 h2]
    exact hbytes _ (List.getElem_mem h2)
  have hnotlt : ¬res.length < DNSMsgHeaderLen := by
    simp only [DNSMsgHeaderLen]
    omega
  refine ⟨?_, ?_, ?_, ?_⟩
  · intro hqr
    simp only [parseResponse, if_neg hnotlt]
    rw [if_pos (by omega : res.getD 2 0 / 128 ≠ 1)]
  · intro hqr hop
    simp only [parseResponse, if_neg hnotlt]
    rw [if_neg (by omega : ¬res.getD 2 0 / 128 ≠ 1), if_pos hop]
  · intro hqr hop htc
    simp only [parseResponse, if_neg hnotlt]
    rw [if_neg (by omega : ¬res.getD 2 0 / 128 ≠ 1), if_neg (by omega : ¬res.getD 2 0 / 8 % 16 ≠ 0),
      if_pos (by omega : res.getD 2 0 / 2 % 2 ≠ 0)]
  · intro n hqr hop htc hrc h1 h5
    simp only [parseResponse, if_neg hnotlt]
    rw [if_neg (by omega : ¬res.getD 2 0 / 128 ≠ 1), if_neg (by omega : ¬res.getD 2 0 / 8 % 16 ≠ 0),
      if_neg (by omega : ¬res.getD 2 0 / 2 % 2 ≠ 0), hrc,
      if_pos (by omega : n ≠ 0)]
    interval_cases n <;> rfl

/-- Witness for C5 at a concrete query-not-response header. -/
theorem c5_header_gates_witness :
    parseResponse 0 [0, 0, 0, 0, 0, 0, 0, 0, 0, 0, 0, 0] =
      .ret none (some .notAResponse) :=
  (c5_header_gates 0 [0, 0, 0, 0, 0, 0, 0, 0, 0, 0, 0, 0]
    (by decide) (by decide)).1 (by decide)

/-- The question loop's only in-loop return is `return nil, ErrCorrupted`
on an empty buffer. -/
theorem skipQuestions_earlyRet (res : List Nat) (fuel : Nat) :
    ∀ (i : Nat) (buf : List Nat) (a : Option (List Answer)) (e : Option DNSErr),
      skipQuestions res fuel i buf = .earlyRet a e → a = none ∧ e = some .corrupted := by
  intro i
  induction i with
  | zero => intro buf a e h; simp [skipQuestions] at h
  | succ n ih =>
      intro buf a e h
      rw [skipQuestions] at h
      split at h
      · cases h; exact ⟨rfl, rfl⟩
      · split at h
        · simp at h
        · simp at h
        · split at h
          · exact ih _ _ _ h
          · simp at h

/-- The answer loop's only in-loop return is `return nil, ErrCorrupted`
on an empty buffer; the `answers` accumulated so far are discarded. -/
theorem parseAnswers_earlyRet (res : List Nat) (fuel : Nat) :
    ∀ (i : Nat) (buf : List Nat) (acc : List Answer) (a : Option (List Answer))
      (e : Option DNSErr),
      parseAnswers res fuel i buf acc = .earlyRet a e → a = none ∧ e = some .corrupted := by
  intro i
  induction i with
  | zero => intro buf acc a e h; simp [parseAnswers] at h
  | succ n ih =>
      intro buf acc a e h
      rw [parseAnswers] at h
      dsimp only [] at h
      split at h
      · cases h; exact ⟨rfl, rfl⟩
      · split at h
        · simp at h
        · simp at h
        · split at h
          · split at h
            · split at h
              · simp at h
              · simp at h
              · exact ih _ _ _ _ h
            · simp at h
          · simp at h

/-- C9. Whenever `parseResponse` returns an error — a header gate, an
RCODE error, or a mid-walk `ErrCorrupted` in the question or answer
loop — the returned answer slice is `nil`: partially decoded answers are
never returned alongside an error. -/
theorem c9_error_discards_answers (fuel : Nat) (res : List Nat)
    (a : Option (List Answer)) (e : DNSErr)
    (h : parseResponse fuel res = .ret a (some e)) : a = none := by
  rw [parseResponse] at h
  dsimp only [] at h
  split at h
  · cases h; rfl
  · split at h
    · cases h; rfl
    · split at h
      · cases h; rfl
      · split at h
        · cases h; rfl
        · split at h
          · split at h
            · simp at h
            · injection h with h1 h2
              exact h1.symm
          · split at h
            · simp at h
            · simp at h
            · rename_i hskip
              cases h
              exact (skipQuestions_earlyRet res fuel _ _ _ _ hskip).1
            · split at h
              · simp at h
              · simp at h
              · rename_i hans
                cases h
                exact (parseAnswers_earlyRet res fuel _ _ _ _ _ hans).1
              · cases h

/-- Witness for C9 at the empty buffer. -/
theorem c9_error_discards_answers_witness :
    parseResponse 0 [] = .ret none (some .corrupted) ∧
      (none : Option (List Answer)) = none :=
  ⟨rfl, c9_error_discards_answers 0 [] none .corrupted rfl⟩

/-- The nine record types with a dedicated parser. -/
def nineTypes : List Nat :=
  [A, NS, CNAME, SOA, PTR, MX, TXT, AAAA, SRV]

/-- The record type a payload variant belongs to. -/
def kindOf : Payload → Nat
  | .a _ => A
  | .aaaa _ => AAAA
  | .cname _ => CNAME
  | .ns _ => NS
  | .ptr _ => PTR
  | .mx _ _ => MX
  | .srv _ _ _ _ => SRV
  | .txt _ => TXT
  | .soa _ _ _ _ _ _ _ => SOA

/-- An answer's payload variant, when present, is tagged with the
answer's own record type. -/
def payloadOk (a : Answer) : Bool :=
  match a.parsed with
  | none => true
  | some p => kindOf p == a.t

theorem parseA_kind {rdata : List Nat} {p : Payload}
    (h : parseA rdata = .ok p) : kindOf p = A := by
  cases h
  rfl

theorem parseAAAA_kind {rdata : List Nat} {p : Payload}
    (h : parseAAAA rdata = .ok p) : kindOf p = AAAA := by
  rw [parseAAAA] at h
  cases hg : aaaaGroups rdata <;> rw [hg] at h <;> simp [GoRes.bind] at h
  rw [← h]
  rfl

theorem parseCNAME_kind {res rdata : List Nat} {fuel : Nat} {p : Payload}
    (h : parseCNAME res fuel rdata = .ok p) : kindOf p = CNAME := by
  rw [parseCNAME] at h
  cases hn : parseName res fuel rdata <;> rw [hn] at h <;> simp [GoRes.bind] at h
  rw [← h]
  rfl

theorem parseNS_kind {res rdata : List Nat} {fuel : Nat} {p : Payload}
    (h : parseNS res fuel rdata = .ok p) : kindOf p = NS := by
  rw [parseNS] at h
  cases hn : parseName res fuel rdata <;> rw [hn] at h <;> simp [GoRes.bind] at h
  rw [← h]
  rfl

theorem parsePTR_kind {res rdata : List Nat} {fuel : Nat} {p : Payload}
    (h : parsePTR res fuel rdata = .ok p) : kindOf p = PTR := by
  rw [parsePTR] at h
  cases hn : parseName res fuel rdata <;> rw [hn] at h <;> simp [GoRes.bind] at h
  rw [← h]
  rfl

theorem parseMX_kind {res rdata : List Nat} {fuel : Nat} {p : Payload}
    (h : parseMX res fuel rdata = .ok p) : kindOf p = MX := by
  rcases rdata with _ | ⟨p0, _ | ⟨p1, rest⟩⟩
  · simp [parseMX] at h
  · simp [parseMX] at h
  · simp only [parseMX] at h
    cases hn : parseName res fuel rest <;> rw [hn] at h <;> simp [GoRes.bind] at h
    rw [← h]
    rfl

theorem parseSRV_kind {res rdata : List Nat} {fuel : Nat} {p : Payload}
    (h : parseSRV res fuel rdata = .ok p) : kindOf p = SRV := by
  rcases rdata with _ | ⟨a0, _ | ⟨a1, _ | ⟨b0, _ | ⟨b1, _ | ⟨c0, _ | ⟨c1, rest⟩⟩⟩⟩⟩⟩
  · simp [parseSRV] at h
  · simp [parseSRV] at h
  · simp [parseSRV] at h
  · simp [parseSRV] at h
  · simp [parseSRV] at h
  · simp [parseSRV] at h
  · simp only [parseSRV] at h
    cases hn : parseName res fuel rest <;> rw [hn] at h <;> simp [GoRes.bind] at h
    rw [← h]
    rfl

theorem parseTXT_kind {rdata : List Nat} {p : Payload}
    (h : parseTXT rdata = .ok p) : kindOf p = TXT := by
  rcases rdata with _ | ⟨len0, rest⟩
  · simp [parseTXT] at h
  · simp only [parseTXT] at h
    split at h <;> simp at h
    rw [← h]
    rfl

theorem parseSOA_kind {res rdata : List Nat} {fuel : Nat} {p : Payload}
    (h : parseSOA res fuel rdata = .ok p) : kindOf p = SOA := by
  rw [parseSOA] at h
  cases hn : parseName res fuel rdata <;> rw [hn] at h <;> simp only [GoRes.bind] at h
  · split at h
    · cases hn2 : parseName res fuel (rdata.drop _) <;> rw [hn2] at h <;>
        simp only [GoRes.bind] at h
      · split at h
        · split at h <;> simp at h
          rw [← h]
          rfl
        · simp at h
      · simp at h
      · simp at h
    · simp at h
  · simp at h
  · simp at h

/-- The dispatch of `parser.parse` only ever pairs a payload with its own
record type, and yields Go's `nil` payload for every type outside the
nine supported ones. -/
theorem parse_kind {res rdata : List Nat} {fuel t c : Nat} {r : Option Payload}
    (h : parse res fuel t c rdata = .ok r) :
    (∀ p, r = some p → kindOf p = t) ∧ (t ∉ nineTypes → r = none) := by
  rw [parse] at h
  split at h
  · rename_i ht
    cases hc : parseCNAME res fuel rdata <;> rw [hc] at h <;> simp [GoRes.bind] at h
    subst ht
    exact ⟨fun p hp => by rw [← h] at hp; cases hp; exact parseCNAME_kind hc,
      fun hn => absurd (by decide : CNAME ∈ nineTypes) hn⟩
  · split at h
    · rename_i ht
      cases hc : parseMX res fuel rdata <;> rw [hc] at h <;> simp [GoRes.bind] at h
      subst ht
      exact ⟨fun p hp => by rw [← h] at hp; cases hp; exact parseMX_kind hc,
        fun hn => absurd (by decide : MX ∈ nineTypes) hn⟩
    · split at h
      · rename_i ht
        cases hc : parseSRV res fuel rdata <;> rw [hc] at h <;> simp [GoRes.bind] at h
        subst ht
        exact ⟨fun p hp => by rw [← h] at hp; cases hp; exact parseSRV_kind hc,
          fun hn => absurd (by decide : SRV ∈ nineTypes) hn⟩
      · split at h
        · rename_i ht
          cases hc : parseNS res fuel rdata <;> rw [hc] at h <;> simp [GoRes.bind] at h
          subst ht
          exact ⟨fun p hp => by rw [← h] at hp; cases hp; exact parseNS_kind hc,
            fun hn => absurd (by decide : NS ∈ nineTypes) hn⟩
        · split at h
          · rename_i ht
            cases hc : parseTXT rdata <;> rw [hc] at h <;> simp [GoRes.bind] at h
            subst ht
            exact ⟨fun p hp => by rw [← h] at hp; cases hp; exact parseTXT_kind hc,
              fun hn => absurd (by decide : TXT ∈ nineTypes) hn⟩
          · split at h
            · rename_i ht
              cases hc : parseSOA res fuel rdata <;> rw [hc] at h <;> simp [GoRes.bind] at h
              subst ht
              exact ⟨fun p hp => by rw [← h] at hp; cases hp; exact parseSOA_kind hc,
                fun hn => absurd (by decide : SOA ∈ nineTypes) hn⟩
            · split at h
              · rename_i ht
                cases hc : parsePTR res fuel rdata <;> rw [hc] at h <;> simp [GoRes.bind] at h
                subst ht
                exact ⟨fun p hp => by rw [← h] at hp; cases hp; exact parsePTR_kind hc,
                  fun hn => absurd (by decide : PTR ∈ nineTypes) hn⟩
              · split at h
                · split at h
                  · rename_i ht
                    cases hc : parseA rdata <;> rw [hc] at h <;> simp [GoRes.bind] at h
                    subst ht
                    exact ⟨fun p hp => by rw [← h] at hp; cases hp; exact parseA_kind hc,
                      fun hn => absurd (by decide : A ∈ nineTypes) hn⟩
                  · split at h
                    · rename_i ht
                      cases hc : parseAAAA rdata <;> rw [hc] at h <;> simp [GoRes.bind] at h
                      subst ht
                      exact ⟨fun p hp => by rw [← h] at hp; cases hp; exact parseAAAA_kind hc,
                        fun hn => absurd (by decide : AAAA ∈ nineTypes) hn⟩
                    · cases h
                      exact ⟨fun p hp => Option.noConfusion hp, fun _ => rfl⟩
                · cases h
                  exact ⟨fun p hp => Option.noConfusion hp, fun _ => rfl⟩

/-- An answer assembled from `parse`'s result satisfies the payload/type
invariant. -/
theorem answer_inv_of_parse {res rdata : List Nat} {fuel t c : Nat} {r : Option Payload}
    (hparse : parse res fuel t c rdata = .ok r) (name : List Nat) (ttl : Nat) :
    payloadOk ⟨name, t, c, ttl, r⟩ = true ∧ (t ∈ nineTypes ∨ r = none) := by
  have hkind := parse_kind hparse
  constructor
  · cases hr : r with
    | none => simp [payloadOk, hr]
    | some q =>
        simp [payloadOk, hr]
        exact hkind.1 q hr
  · by_cases ht : t ∈ nineTypes
    · exact Or.inl ht
    · exact Or.inr (hkind.2 ht)

/-- Every answer the answer loop appends satisfies the payload/type
invariant, so the loop preserves it from its accumulator to its
output. -/
theorem parseAnswers_inv (res : List Nat) (fuel : Nat) :
    ∀ (i : Nat) (buf : List Nat) (acc out : List Answer),
      parseAnswers res fuel i buf acc = .ok out →
      (∀ a ∈ acc, payloadOk a = true ∧ (a.t ∈ nineTypes ∨ a.parsed = none)) →
      ∀ a ∈ out, payloadOk a = true ∧ (a.t ∈ nineTypes ∨ a.parsed = none) := by
  intro i
  induction i with
  | zero =>
      intro buf acc out h hacc
      rw [parseAnswers] at h
      cases h
      exact hacc
  | succ n ih =>
      intro buf acc out h hacc
      rw [parseAnswers] at h
      dsimp only [] at h
      split at h
      · simp at h
      · split at h
        · simp at h
        · simp at h
        · split at h
          · split at h
            · split at h
              · simp at h
              · simp at h
              · rename_i parsed hparse
                refine ih _ _ _ h ?_
                intro a ha
                rcases List.mem_append.1 ha with hmem | hmem
                · exact hacc a hmem
                · rcases List.mem_singleton.1 hmem with rfl
                  exact answer_inv_of_parse hparse _ _
            · simp at h
          · simp at h

/-- C8. On every successful decode, an answer with a non-`nil` payload
carries the payload variant of its own declared record type, and an
answer whose type is outside the nine supported ones carries no
payload. -/
theorem c8_payload_matches_type (fuel : Nat) (res : List Nat) (answers : List Answer)
    (h : parseResponse fuel res = .ret (some answers) none) :
    ∀ a ∈ answers, payloadOk a = true ∧ (a.t ∈ nineTypes ∨ a.parsed = none) := by
  rw [parseResponse] at h
  dsimp only [] at h
  split at h
  · simp at h
  · split at h
    · simp at h
    · split at h
      · simp at h
      · split at h
        · simp at h
        · split at h
          · split at h
            · simp at h
            · injection h with h1 h2
              exact absurd h1.symm (by simp)
          · split at h
            · simp at h
            · simp at h
            · rename_i hskip
              injection h with h1 h2
              exact absurd h2.symm ((skipQuestions_earlyRet res fuel _ _ _ _ hskip).2 ▸ by simp)
            · split at h
              · simp at h
              · simp at h
              · rename_i hans
                injection h with h1 h2
                exact absurd h2.symm
                  ((parseAnswers_earlyRet res fuel _ _ _ _ _ hans).2 ▸ by simp)
              · rename_i hok
                injection h with h1 h2
                injection h1 with h1
                exact h1 ▸ parseAnswers_inv res fuel _ _ _ _ hok (by simp)

/-- Witness for C8: a one-answer response with an A record, whose
decoded answer satisfies the invariant. -/
theorem c8_payload_matches_type_witness :
    payloadOk ⟨[], 1, 1, 60, some (.a [49, 46, 50, 46, 51, 46, 52])⟩ = true ∧
      ((⟨[], 1, 1, 60, some (.a [49, 46, 50, 46, 51, 46, 52])⟩ : Answer).t ∈ nineTypes ∨
        (⟨[], 1, 1, 60, some (.a [49, 46, 50, 46, 51, 46, 52])⟩ : Answer).parsed = none) :=
  c8_payload_matches_type 1
    [0, 0, 128, 0, 0, 0, 0, 1, 0, 0, 0, 0,
     0, 0, 1, 0, 1, 0, 0, 0, 60, 0, 4, 1, 2, 3, 4]
    [⟨[], 1, 1, 60, some (.a [49, 46, 50, 46, 51, 46, 52])⟩]
    (by rfl) _ (List.mem_singleton.2 rfl)

/-- C7. Dispatch of answer records: the seven class-agnostic types go to
their parsers for every class; A and AAAA go to their parsers exactly
when the class is `IN` or `ANYCLASS` (and otherwise yield a `nil`
payload); every type outside the nine yields a `nil` payload for every
class; and the answer loop appends the answer assembled from whatever
payload `parse` produced — `nil` included — and proceeds with the
remaining records. -/
theorem c7_dispatch (fuel : Nat) (res rdata : List Nat) (c : Nat) :
    (parse res fuel CNAME c rdata = (parseCNAME res fuel rdata).bind fun p => .ok (some p)) ∧
    (parse res fuel MX c rdata = (parseMX res fuel rdata).bind fun p => .ok (some p)) ∧
    (parse res fuel SRV c rdata = (parseSRV res fuel rdata).bind fun p => .ok (some p)) ∧
    (parse res fuel NS c rdata = (parseNS res fuel rdata).bind fun p => .ok (some p)) ∧
    (parse res fuel TXT c rdata = (parseTXT rdata).bind fun p => .ok (some p)) ∧
    (parse res fuel SOA c rdata = (parseSOA res fuel rdata).bind fun p => .ok (some p)) ∧
    (parse res fuel PTR c rdata = (parsePTR res fuel rdata).bind fun p => .ok (some p)) ∧
    ((c = IN ∨ c = ANYCLASS) →
        parse res fuel A c rdata = (parseA rdata).bind (fun p => .ok (some p)) ∧
        parse res fuel AAAA c rdata = (parseAAAA rdata).bind fun p => .ok (some p)) ∧
    (¬(c = IN ∨ c = ANYCLASS) →
        parse res fuel A c rdata = .ok none ∧ parse res fuel AAAA c rdata = .ok none) ∧
    (∀ t : Nat, t ∉ nineTypes → parse res fuel t c rdata = .ok none) ∧
    (∀ (i : Nat) (buf : List Nat) (acc : List Answer) (name : List Nat)
        (offset t2 cls ttl rdl : Nat) (pay : Option Payload),
      buf.length ≠ 0 →
      parseName res fuel buf = .ok (name, offset) →
      readU16 buf offset = some t2 →
      readU16 buf (offset + 2) = some cls →
      readU32 buf (offset + 4) = some ttl →
      readU16 buf (offset + 8) = some rdl →
      offset + 10 + rdl ≤ buf.length →
      parse res fuel t2 cls (slice buf (offset + 10) (offset + 10 + rdl)) = .ok pay →
      parseAnswers res fuel (i + 1) buf acc =
        parseAnswers res fuel i (buf.drop (offset + 10 + rdl))
          (acc ++ [⟨name, t2, cls, ttl, pay⟩])) := by
  refine ⟨rfl, rfl, rfl, rfl, rfl, rfl, rfl, ?_, ?_, ?_, ?_⟩
  · intro hc
    constructor
    · rw [parse, if_neg (by decide : ¬(A = CNAME)), if_neg (by decide : ¬(A = MX)),
        if_neg (by decide : ¬(A = SRV)), if_neg (by decide : ¬(A = NS)),
        if_neg (by decide : ¬(A = TXT)), if_neg (by decide : ¬(A = SOA)),
        if_neg (by decide : ¬(A = PTR)), if_pos hc, if_pos (rfl : A = A)]
    · rw [parse, if_neg (by decide : ¬(AAAA = CNAME)), if_neg (by decide : ¬(AAAA = MX)),
        if_neg (by decide : ¬(AAAA = SRV)), if_neg (by decide : ¬(AAAA = NS)),
        if_neg (by decide : ¬(AAAA = TXT)), if_neg (by decide : ¬(AAAA = SOA)),
        if_neg (by decide : ¬(AAAA = PTR)), if_pos hc, if_neg (by decide : ¬(AAAA = A)),
        if_pos (rfl : AAAA = AAAA)]
  · intro hc
    constructor
    · rw [parse, if_neg (by decide : ¬(A = CNAME)), if_neg (by decide : ¬(A = MX)),
        if_neg (by decide : ¬(A = SRV)), if_neg (by decide : ¬(A = NS)),
        if_neg (by decide : ¬(A = TXT)), if_neg (by decide : ¬(A = SOA)),
        if_neg (by decide : ¬(A = PTR)), if_neg hc]
    · rw [parse, if_neg (by decide : ¬(AAAA = CNAME)), if_neg (by decide : ¬(AAAA = MX)),
        if_neg (by decide : ¬(AAAA = SRV)), if_neg (by decide : ¬(AAAA = NS)),
        if_neg (by decide : ¬(AAAA = TXT)), if_neg (by decide : ¬(AAAA = SOA)),
        if_neg (by decide : ¬(AAAA = PTR)), if_neg hc]
  · intro t ht
    have h5 : t ≠ CNAME := fun he => ht (by rw [he]; decide)
    have h15 : t ≠ MX := fun he => ht (by rw [he]; decide)
    have h33 : t ≠ SRV := fun he => ht (by rw [he]; decide)
    have h2 : t ≠ NS := fun he => ht (by rw [he]; decide)
    have h16 : t ≠ TXT := fun he => ht (by rw [he]; decide)
    have h6 : t ≠ SOA := fun he => ht (by rw [he]; decide)
    have h12 : t ≠ PTR := fun he => ht (by rw [he]; decide)
    have h1 : t ≠ A := fun he => ht (by rw [he]; decide)
    have h28 : t ≠ AAAA := fun he => ht (by rw [he]; decide)
    rw [parse, if_neg h5, if_neg h15, if_neg h33, if_neg h2, if_neg h16, if_neg h6,
      if_neg h12]
    rw [if_neg h1, if_neg h28]
    split <;> rfl
  · intro i buf acc name offset t2 cls ttl rdl pay hbuf hname ht2 hcls httl hrdl hle hparse
    rw [parseAnswers]
    dsimp only []
    rw [if_neg hbuf]
    rw [show parseName res fuel buf = GoRes.ok (name, offset) from hname]
    dsimp only []
    rw [ht2, hcls, httl, hrdl]
    dsimp only []
    rw [if_pos hle, hparse]

/-- Witness for C7: an IN-class A record is parsed, an unrecognized
(type 99, class 3) record yields a `nil` payload, and the loop step
appends the unrecognized record's answer and moves on. -/
theorem c7_dispatch_witness :
    parse [] 1 A IN [1, 2, 3, 4] = .ok (some (.a [49, 46, 50, 46, 51, 46, 52])) ∧
    parse [] 1 99 3 [] = .ok none ∧
    parseAnswers [] 1 1 [0, 0, 99, 0, 3, 0, 0, 0, 60, 0, 0] [] =
      parseAnswers [] 1 0 [] [⟨[], 99, 3, 60, none⟩] :=
  ⟨((c7_dispatch 1 [] [1, 2, 3, 4] IN).2.2.2.2.2.2.2.1 (Or.inl rfl)).1.trans (by rfl),
   (c7_dispatch 1 [] [] 3).2.2.2.2.2.2.2.2.2.1 99 (by decide),
   (c7_dispatch 1 [] [] 3).2.2.2.2.2.2.2.2.2.2 0 [0, 0, 99, 0, 3, 0, 0, 0, 60, 0, 0] []
     [] 1 99 3 60 0 none (by decide) (by rfl) (by rfl) (by rfl) (by rfl) (by rfl)
     (by decide) (by rfl)⟩

end Doh
